import Mathlib

set_option maxRecDepth 1000

/-!
Verification development for the website-chatbot pipeline
(`website_chatbot.py`): a content extractor over parsed HTML, a
conversational responder around a remote model, and an interactive
session controller.  The external libraries (HTML parser, URL library,
model API) are treated as capabilities: the parsed document is a
structure of query functions, the model is a function from prompt text
to a result, and URL joining is a function parameter.
-/

/-! ### Python-style string primitives (on character lists) -/

/-- Characters treated as whitespace by Python str.strip and by the
regex whitespace class used in the source. -/
def isPySpace (c : Char) : Bool :=
  c = ' ' || c = '\t' || c = '\n' || c = '\r' || c = '\x0b' || c = '\x0c'

/-- Drop trailing characters satisfying p; the result is a prefix of the input. -/
def dropTrailing (p : Char → Bool) : List Char → List Char
  | [] => []
  | c :: rest =>
    let r := dropTrailing p rest
    if r.isEmpty && p c then [] else c :: r

/-- Python str.strip: remove leading and trailing whitespace. -/
def pyStrip (s : String) : String :=
  ⟨dropTrailing isPySpace (s.data.dropWhile isPySpace)⟩

/-- Python slice s[:n] on a string (first n characters). -/
def pyTake (n : Nat) (s : String) : String := ⟨s.data.take n⟩

/-- Python str.lower (ASCII case folding suffices for the source). -/
def pyLower (s : String) : String := ⟨s.data.map Char.toLower⟩

/-- Does the second list start the first argument list? Helper for
substring and startswith tests. -/
def charsStartWith : List Char → List Char → Bool
  | [], _ => true
  | _ :: _, [] => false
  | p :: ps, s :: ss => p == s && charsStartWith ps ss

/-- Is pat a contiguous substring of the list? -/
def charsContain (pat : List Char) : List Char → Bool
  | [] => charsStartWith pat []
  | c :: rest => charsStartWith pat (c :: rest) || charsContain pat rest

/-- Python membership test pat in s on strings. -/
def strContains (s pat : String) : Bool := charsContain pat.data s.data

/-- Python str.startswith. -/
def pyStartsWith (s p : String) : Bool := charsStartWith p.data s.data

/-- One pass of the whitespace-collapsing substitution: every maximal
run of whitespace becomes a single space.  The flag records whether the
previous character was whitespace. -/
def collapseGo : Bool → List Char → List Char
  | _, [] => []
  | prevWs, c :: rest =>
    if isPySpace c then
      if prevWs then collapseGo true rest else ' ' :: collapseGo true rest
    else c :: collapseGo false rest

/-- The regex substitution used by the source: replace every whitespace
run by one space. -/
def collapseWs (s : String) : String := ⟨collapseGo false s.data⟩

/-- Python " ".join. -/
def joinSp : List String → String
  | [] => ""
  | [s] => s
  | s :: t :: ts => s ++ " " ++ joinSp (t :: ts)

/-- Python "\n".join. -/
def joinNl : List String → String
  | [] => ""
  | [s] => s
  | s :: t :: ts => s ++ "\n" ++ joinNl (t :: ts)

/-- No two adjacent space characters occur in the list. -/
def noTwoSpaces : List Char → Bool
  | a :: b :: rest => !(a == ' ' && b == ' ') && noTwoSpaces (b :: rest)
  | _ => true

/-! ### The parsed document, as a capability structure

BeautifulSoup is external; the source only queries it.  A parsed
document (after the script/style/nav/footer/header/aside removal done
in fetch_website_content) is modelled by the answers to the queries the
extractor makes: the texts of the elements matching a CSS selector in
document order, the body text when a body element exists, the texts of
the h1..h6 elements per level in document order, and the anchors that
carry an href attribute in document order. -/

/-- An anchor element carrying an href attribute, with its visible text. -/
structure Anchor where
  href : String
  text : String
deriving DecidableEq

/-- The parsed document, reduced to the query results the extractor uses. -/
structure Soup where
  selectTexts : String → List String
  bodyText : Option String
  headingTexts : Nat → List String
  anchors : List Anchor

/-! ### WebsiteContentExtractor -/

/-- The fixed selector priority list of _extract_main_content. -/
def main_selectors : List String :=
  ["main", "article", ".content", "#content", ".main", "#main"]

/-- The selector loop of _extract_main_content: for each selector in
order, if it matches at least one element, return the space-join of the
stripped element texts and stop. -/
def firstSelectorTexts : List String → Soup → String
  | [], _ => ""
  | sel :: rest, soup =>
    let elements := soup.selectTexts sel
    if elements.isEmpty then firstSelectorTexts rest soup
    else joinSp (elements.map pyStrip)

/-- The content string before cleanup: the selector loop result, with a
fallback to the full body text whenever that result is the empty string
(the source tests the accumulated string for truthiness, not whether a
selector matched). -/
def rawMainContent (soup : Soup) : String :=
  let mc := firstSelectorTexts main_selectors soup
  if mc = "" then
    match soup.bodyText with
    | some b => b
    | none => mc
  else mc

/-- _extract_main_content: selector loop with body fallback, whitespace
collapse, strip, and truncation to 5000 characters. -/
def extract_main_content (soup : Soup) : String :=
  pyTake 5000 (pyStrip (collapseWs (rawMainContent soup)))

/-- All qualifying heading strings: levels 1..6 in order, document
order within a level, nonempty stripped text formatted with an H-level
tag. -/
def qualifyingHeadings (soup : Soup) : List String :=
  ([1, 2, 3, 4, 5, 6] : List Nat).flatMap (fun i =>
    (soup.headingTexts i).filterMap (fun raw =>
      let text := pyStrip raw
      if text = "" then none else some ("H" ++ toString i ++ ": " ++ text)))

/-- _extract_headings: the qualifying headings, capped at 20. -/
def extract_headings (soup : Soup) : List String :=
  (qualifyingHeadings soup).take 20

/-- _extract_links: scan the first 10 anchors carrying href; emit
"text: absolute url" for those with nonempty stripped text, resolving
the href against the base URL with the external urljoin capability. -/
def extract_links (urljoin : String → String → String) (soup : Soup)
    (base_url : String) : List String :=
  (soup.anchors.take 10).filterMap (fun a =>
    let link_text := pyStrip a.text
    if link_text = "" then none
    else some (link_text ++ ": " ++ urljoin base_url a.href))

/-! ### GeminiBot -/

/-- The extracted-content record handed from the extractor to the bot. -/
structure ExtractedContent where
  title : String
  main_content : String
  headings : List String
  links : List String
  meta_description : String
  url : String

/-- One conversation turn, as stored in the history. -/
structure ConversationTurn where
  user : String
  bot : String
deriving DecidableEq

/-- The mutable state of a GeminiBot instance. -/
structure GeminiBotState where
  conversation_history : List ConversationTurn
  website_content : Option ExtractedContent
  context : String
  max_history : Nat

/-- The state right after GeminiBot.__init__. -/
def GeminiBot_init : GeminiBotState :=
  { conversation_history := [], website_content := none, context := "", max_history := 10 }

/-- set_website_context: store the content and build the newline-joined
context block. -/
def set_website_context (st : GeminiBotState) (content : ExtractedContent) :
    GeminiBotState :=
  let context_parts := [
    "Website Title: " ++ content.title,
    "URL: " ++ content.url,
    "Meta Description: " ++ content.meta_description]
  let context_parts := if content.headings.isEmpty then context_parts
    else context_parts ++ ["Key Headings:"] ++ content.headings.take 10
  let context_parts := if content.main_content = "" then context_parts
    else context_parts ++ ["Main Content: " ++ content.main_content]
  let context_parts := if content.links.isEmpty then context_parts
    else context_parts ++ ["Important Links:"] ++ content.links.take 5
  { st with website_content := some content, context := joinNl context_parts }

/-- The literal text of the prompt template before the context. -/
def promptHead : String :=
  "You are a helpful assistant that can answer questions about a specific website. \n            Here is the website content for context:\n            \n            "

/-- The literal prompt text between the context and the user message. -/
def promptMid : String :=
  "\n            \n            Please answer user questions based on this website content. If the question cannot be answered \n            from the website content, politely let the user know and provide general helpful information if possible.\n            \n            User Question: "

/-- The literal prompt text after the user message. -/
def promptTail : String :=
  "\n            \n            Please provide a helpful response:"

/-- The outbound prompt chat builds from the stored context and the
user message. -/
def chatPrompt (st : GeminiBotState) (user_message : String) : String :=
  promptHead ++ st.context ++ promptMid ++ user_message ++ promptTail

/-- Outcome of one call to the remote model: a response whose text may
be absent, or a raised exception with its description. -/
inductive ModelResult where
  | ok (text : Option String)
  | exn (message : String)

/-- Fixed message for an authentication failure. -/
def invalidKeyMsg : String :=
  "Error: Invalid Google Gemini API key. Please check your API key and try again."

/-- Fixed message for a quota or limit failure. -/
def quotaMsg : String :=
  "Error: API quota exceeded. Please check your Google Cloud account."

/-- Fixed message for a safety-filter failure. -/
def safetyMsg : String :=
  "Error: Content was blocked by safety filters. Please try rephrasing your question."

/-- Generic failure message, carrying the raw failure text. -/
def genericErrorMsg (e : String) : String :=
  "Error: An unexpected error occurred - " ++ e

/-- Fixed apology for a response with no generated text. -/
def apologyMsg : String :=
  "I\x27m sorry, I couldn\x27t generate a response. Please try rephrasing your question."

/-- The except-branch of chat: classify the failure description by
case-insensitive substring tests, in the fixed priority order. -/
def classify_error (e : String) : String :=
  let error_msg := pyLower e
  if strContains error_msg "api key" || strContains error_msg "authentication" then
    invalidKeyMsg
  else if strContains error_msg "quota" || strContains error_msg "limit" then
    quotaMsg
  else if strContains error_msg "safety" then
    safetyMsg
  else genericErrorMsg e

/-- Python slice l[-n:] for n ≥ 1 keeps the last n elements (the n = 0
case of the source never arises since max_history is 10). -/
def pyLastSlice (n : Nat) (l : List α) : List α :=
  if n = 0 then l else l.drop (l.length - n)

/-- GeminiBot.chat: build the prompt, call the model, and on a nonempty
response append the turn and truncate the history; on an empty response
return the apology; on an exception return the classified message.  The
model is the external capability, a function from prompt text to
result. -/
def chat (model : String → ModelResult) (st : GeminiBotState)
    (user_message : String) : String × GeminiBotState :=
  let prompt := chatPrompt st user_message
  match model prompt with
  | ModelResult.exn e => (classify_error e, st)
  | ModelResult.ok none => (apologyMsg, st)
  | ModelResult.ok (some t) =>
    if t = "" then (apologyMsg, st)
    else
      let bot_response := pyStrip t
      let hist := st.conversation_history ++ [⟨user_message, bot_response⟩]
      let hist := if hist.length > st.max_history then pyLastSlice st.max_history hist
        else hist
      (bot_response, { st with conversation_history := hist })

/-- The history after appending the new turn, before truncation. -/
def appendedHistory (st : GeminiBotState) (user_message t : String) :
    List ConversationTurn :=
  st.conversation_history ++ [ConversationTurn.mk user_message (pyStrip t)]

/-- Run a sequence of successful chat turns: for each pair, the model
answers the given bot text. -/
def runSuccessChats (pairs : List (String × String)) (st : GeminiBotState) :
    GeminiBotState :=
  pairs.foldl (fun s p => (chat (fun _ => ModelResult.ok (some p.2)) s p.1).2) st

/-! ### WebsiteChatbot (session controller) -/

/-- The netloc component urlparse reports for the strings this program
validates, which always begin with "http://" or "https://": the
authority runs from after the scheme separator to the next slash,
question mark or hash. -/
def urlNetloc (url : String) : String :=
  if pyStartsWith url "http://" then
    ⟨(url.data.drop 7).takeWhile (fun c => !(c == '/' || c == '?' || c == '#'))⟩
  else if pyStartsWith url "https://" then
    ⟨(url.data.drop 8).takeWhile (fun c => !(c == '/' || c == '?' || c == '#'))⟩
  else ""

/-- The protocol-adding step of _get_website_url: the entry is kept
when it starts with "http://" or "https://", and otherwise "https://"
is put in front. -/
def normalizeUrl (u : String) : String :=
  if pyStartsWith u "http://" || pyStartsWith u "https://" then u
  else "https://" ++ u

/-- _get_website_url over a stream of input lines: strip the entry,
abort on an empty entry, add "https://" when the entry starts with
neither "http://" nor "https://", accept when the netloc is nonempty,
and otherwise re-prompt on the remaining input. -/
def get_website_url : List String → Option String
  | [] => none
  | line :: rest =>
    let url := pyStrip line
    if url = "" then none
    else
      let url2 := normalizeUrl url
      if urlNetloc url2 ≠ "" then some url2 else get_website_url rest

/-- Result of _get_api_key: the key returned, and whether the prefix
warning was printed. -/
structure ApiKeyResult where
  key : Option String
  warned : Bool
deriving DecidableEq

/-- The interactive branch of _get_api_key: strip the entered key,
abort when empty, and warn when it does not start with "AI". -/
def api_key_from_input (entered : String) : ApiKeyResult :=
  let k := pyStrip entered
  if k = "" then { key := none, warned := false }
  else { key := some k, warned := !(pyStartsWith k "AI") }

/-- _get_api_key: a truthy (nonempty) environment value is returned at
once with no warning; otherwise the interactive branch runs. -/
def get_api_key (env : Option String) (entered : String) : ApiKeyResult :=
  match env with
  | some k => if k = "" then api_key_from_input entered else { key := some k, warned := false }
  | none => api_key_from_input entered

/-- The session state of WebsiteChatbot relevant to context switching. -/
structure AppState where
  bot : GeminiBotState
  website_url : Option String

/-- _change_website: acquire a URL from the input stream; on success
fetch it with the external fetch capability; only when both succeed,
replace the stored context and URL. -/
def change_website (fetch : String → Option ExtractedContent)
    (inputs : List String) (app : AppState) : AppState :=
  match get_website_url inputs with
  | none => app
  | some url =>
    match fetch url with
    | none => app
    | some content =>
      { bot := set_website_context app.bot content, website_url := some url }

/-- The title the info command displays: the title of the stored
website content, when any is stored. -/
def shownInfoTitle (app : AppState) : Option String :=
  app.bot.website_content.map (fun c => c.title)

/-! ### Definitions written from the claims (for comparison) -/

/-- The first selector of the priority list that matches at least one
element, with the texts of its matches. -/
def firstMatchingSelector : List String → Soup → Option (List String)
  | [], _ => none
  | sel :: rest, soup =>
    let elements := soup.selectTexts sel
    if elements.isEmpty then firstMatchingSelector rest soup else some elements

/-- Main-content extraction as claim C1 words it: the cleaned
space-joined text of the first selector with at least one match, with
the body fallback taken only when no selector matches at all. -/
def claimedMainContent (soup : Soup) : String :=
  match firstMatchingSelector main_selectors soup with
  | some texts => pyTake 5000 (pyStrip (collapseWs (joinSp (texts.map pyStrip))))
  | none =>
    pyTake 5000 (pyStrip (collapseWs (match soup.bodyText with
      | some b => b
      | none => "")))

/-- The conditional sections of the context block as the spec describes
them: when headings exist a label and at most the first 10 headings,
then when the main content is nonempty a main content line, then when
links exist a label and at most the first 5 links. -/
def contextTailParts (content : ExtractedContent) : List String :=
  (if content.headings = [] then []
   else "Key Headings:" :: content.headings.take 10)
  ++ (if content.main_content = "" then []
      else ["Main Content: " ++ content.main_content])
  ++ (if content.links = [] then []
      else "Important Links:" :: content.links.take 5)

/-- The context block as the spec describes it: title line, URL line,
meta-description line, then the conditional sections, all
newline-joined. -/
def specContextBlock (content : ExtractedContent) : String :=
  joinNl (["Website Title: " ++ content.title,
           "URL: " ++ content.url,
           "Meta Description: " ++ content.meta_description]
    ++ contextTailParts content)

/-- Modelled from the spec wording of claim C7: a scheme component is
present when the entry begins with an ASCII letter followed by letters,
digits, plus, minus or dot up to a colon, as in generic URL syntax. -/
def schemeTail : List Char → Bool
  | [] => false
  | c :: rest =>
    if c = ':' then true
    else (c.isAlphanum || c = '+' || c = '-' || c = '.') && schemeTail rest

/-- Modelled from the spec wording of claim C7: whether a URL entry has
a scheme present. -/
def hasScheme (s : String) : Bool :=
  match s.data with
  | [] => false
  | c :: rest => c.isAlpha && schemeTail rest

/-! ### Concrete fixtures used by witnesses and counterexamples -/

/-- A document with no selector matches and a body text of 5001
characters. -/
def bigBodySoup : Soup :=
  { selectTexts := fun _ => [], bodyText := some ⟨List.replicate 5001 'a'⟩,
    headingTexts := fun _ => [], anchors := [] }

/-- A document whose only match for the selector "main" is a single
element with blank text, while the body holds real text. -/
def mainBlankSoup : Soup :=
  { selectTexts := fun sel => if sel = "main" then [" "] else [],
    bodyText := some "hello", headingTexts := fun _ => [], anchors := [] }

/-- Eleven user messages with the bot texts the model answers for them. -/
def elevenTurns : List (String × String) :=
  [("u1", "b1"), ("u2", "b2"), ("u3", "b3"), ("u4", "b4"), ("u5", "b5"),
   ("u6", "b6"), ("u7", "b7"), ("u8", "b8"), ("u9", "b9"), ("u10", "b10"),
   ("u11", "b11")]

/-- A document with exactly ten href-carrying anchors, the last of
which has blank visible text. -/
def tenAnchorsSoup : Soup :=
  { selectTexts := fun _ => [], bodyText := none, headingTexts := fun _ => [],
    anchors := [⟨"/a1", "t1"⟩, ⟨"/a2", "t2"⟩, ⟨"/a3", "t3"⟩, ⟨"/a4", "t4"⟩,
                ⟨"/a5", "t5"⟩, ⟨"/a6", "t6"⟩, ⟨"/a7", "t7"⟩, ⟨"/a8", "t8"⟩,
                ⟨"/a9", "t9"⟩, ⟨"/a10", " "⟩] }

/-- A document with 21 nonempty h1 headings and no other headings. -/
def manyHeadingsSoup : Soup :=
  { selectTexts := fun _ => [], bodyText := none,
    headingTexts := fun i => if i = 1 then List.replicate 21 "x" else [],
    anchors := [] }

/-- A stored content record with a recognisable title. -/
def oldContent : ExtractedContent :=
  { title := "Old Title", main_content := "old body", headings := [],
    links := [], meta_description := "old desc", url := "https://old.example" }

/-- A session that already holds oldContent as its context. -/
def oldApp : AppState :=
  { bot := set_website_context GeminiBot_init oldContent,
    website_url := some "https://old.example" }

/-! ### Helper lemmas -/

theorem charsStartWith_append (p r : List Char) :
    charsStartWith p (p ++ r) = true := by
  induction p with
  | nil => rfl
  | cons c cs ih => simp [charsStartWith, ih]

theorem charsContain_cons (pat : List Char) (c : Char) (l : List Char)
    (h : charsContain pat l = true) : charsContain pat (c :: l) = true := by
  simp [charsContain, h]

theorem charsContain_append_left (pat pre l : List Char)
    (h : charsContain pat l = true) : charsContain pat (pre ++ l) = true := by
  induction pre with
  | nil => simpa using h
  | cons c cs ih => exact charsContain_cons pat c (cs ++ l) ih

theorem charsContain_self_append (pat suf : List Char) :
    charsContain pat (pat ++ suf) = true := by
  cases hp : pat ++ suf with
  | nil => cases pat <;> simp_all [charsContain, charsStartWith]
  | cons c cs =>
    have : charsStartWith pat (pat ++ suf) = true := charsStartWith_append pat suf
    rw [hp] at this
    simp [charsContain, this]

theorem charsContain_spot (pat pre suf : List Char) :
    charsContain pat (pre ++ (pat ++ suf)) = true :=
  charsContain_append_left pat pre _ (charsContain_self_append pat suf)

theorem collapseGo_true_head (l : List Char) (c : Char) (cs : List Char)
    (h : collapseGo true l = c :: cs) : isPySpace c = false := by
  induction l with
  | nil => simp [collapseGo] at h
  | cons d rest ih =>
    by_cases hd : isPySpace d = true
    · rw [show collapseGo true (d :: rest) = collapseGo true rest by
        simp [collapseGo, hd]] at h
      exact ih h
    · rw [show collapseGo true (d :: rest) = d :: collapseGo false rest by
        simp [collapseGo, hd]] at h
      cases h
      simpa using hd

theorem noTwoSpaces_collapseGo (l : List Char) : ∀ b,
    noTwoSpaces (collapseGo b l) = true := by
  induction l with
  | nil => intro b; rfl
  | cons c rest ih =>
    intro b
    by_cases hc : isPySpace c = true
    · cases b with
      | true =>
        rw [show collapseGo true (c :: rest) = collapseGo true rest by
          simp [collapseGo, hc]]
        exact ih true
      | false =>
        rw [show collapseGo false (c :: rest) = ' ' :: collapseGo true rest by
          simp [collapseGo, hc]]
        cases hX : collapseGo true rest with
        | nil => rfl
        | cons d ds =>
          have hd : isPySpace d = false := collapseGo_true_head rest d ds hX
          have hd' : (d == ' ') = false := by
            cases hdd : d == ' '
            · rfl
            · exfalso
              have : d = ' ' := by simpa using hdd
              rw [this] at hd
              simp [isPySpace] at hd
          have := ih true
          rw [hX] at this
          simp [noTwoSpaces, hd', this]
    · have hc' : (c == ' ') = false := by
        cases hcc : c == ' '
        · rfl
        · exfalso
          have : c = ' ' := by simpa using hcc
          rw [this] at hc
          simp [isPySpace] at hc
      rw [show collapseGo b (c :: rest) = c :: collapseGo false rest by
        simp [collapseGo, hc]]
      cases hX : collapseGo false rest with
      | nil => rfl
      | cons d ds =>
        have := ih false
        rw [hX] at this
        simp [noTwoSpaces, hc', this]

theorem noTwoSpaces_tail (a : Char) (l : List Char)
    (h : noTwoSpaces (a :: l) = true) : noTwoSpaces l = true := by
  cases l with
  | nil => rfl
  | cons b r =>
    have := h
    simp [noTwoSpaces] at this
    simpa [noTwoSpaces] using this.2

theorem noTwoSpaces_take (l : List Char) : ∀ n,
    noTwoSpaces l = true → noTwoSpaces (l.take n) = true := by
  induction l with
  | nil => intro n _; simp [noTwoSpaces]
  | cons c rest ih =>
    intro n h
    cases n with
    | zero => rfl
    | succ m =>
      rw [List.take_succ_cons]
      cases rest with
      | nil => simp [noTwoSpaces]
      | cons d ds =>
        cases m with
        | zero => simp [noTwoSpaces]
        | succ k =>
          have hpair : (!(c == ' ' && d == ' ')) = true := by
            simp [noTwoSpaces] at h
            simp [h.1]
          have htail : noTwoSpaces ((d :: ds).take (k + 1)) = true :=
            ih (k + 1) (noTwoSpaces_tail c (d :: ds) h)
          rw [List.take_succ_cons]
          rw [List.take_succ_cons] at htail
          simp [noTwoSpaces] at hpair htail ⊢
          exact ⟨hpair, htail⟩

theorem noTwoSpaces_dropWhile (p : Char → Bool) (l : List Char)
    (h : noTwoSpaces l = true) : noTwoSpaces (l.dropWhile p) = true := by
  induction l with
  | nil => rfl
  | cons c rest ih =>
    rw [List.dropWhile_cons]
    by_cases hc : p c = true
    · simp only [hc, if_true]
      exact ih (noTwoSpaces_tail c rest h)
    · simp only [hc, if_false]
      exact h

theorem dropTrailing_eq_take (p : Char → Bool) (l : List Char) :
    ∃ n, dropTrailing p l = l.take n := by
  induction l with
  | nil => exact ⟨0, rfl⟩
  | cons c rest ih =>
    obtain ⟨m, hm⟩ := ih
    by_cases hcond : ((dropTrailing p rest).isEmpty && p c) = true
    · exact ⟨0, by simp [dropTrailing, hcond]⟩
    · refine ⟨m + 1, ?_⟩
      simp only [dropTrailing, hcond, if_false]
      rw [List.take_succ_cons]
      simp [hm]

theorem noTwoSpaces_dropTrailing (p : Char → Bool) (l : List Char)
    (h : noTwoSpaces l = true) : noTwoSpaces (dropTrailing p l) = true := by
  obtain ⟨n, hn⟩ := dropTrailing_eq_take p l
  rw [hn]
  exact noTwoSpaces_take l n h

theorem noTwoSpaces_clean (s : String) :
    noTwoSpaces (pyTake 5000 (pyStrip (collapseWs s))).data = true := by
  have h0 : noTwoSpaces (collapseGo false s.data) = true :=
    noTwoSpaces_collapseGo s.data false
  have h1 : noTwoSpaces ((collapseGo false s.data).dropWhile isPySpace) = true :=
    noTwoSpaces_dropWhile isPySpace _ h0
  have h2 : noTwoSpaces
      (dropTrailing isPySpace ((collapseGo false s.data).dropWhile isPySpace)) = true :=
    noTwoSpaces_dropTrailing isPySpace _ h1
  exact noTwoSpaces_take _ 5000 h2

theorem firstSelectorTexts_eq_nil (soup : Soup) : ∀ sels : List String,
    (∀ sel ∈ sels, soup.selectTexts sel = []) →
    firstSelectorTexts sels soup = "" := by
  intro sels
  induction sels with
  | nil => intro _; rfl
  | cons sel rest ih =>
    intro h
    have hsel : soup.selectTexts sel = [] := h sel (by simp)
    simp only [firstSelectorTexts, hsel]
    exact ih (fun s hs => h s (by simp [hs]))

theorem collapseGo_all_nonspace (l : List Char)
    (h : ∀ c ∈ l, isPySpace c = false) : ∀ b, collapseGo b l = l := by
  induction l with
  | nil => intro b; rfl
  | cons c rest ih =>
    intro b
    have hc : isPySpace c = false := h c (by simp)
    rw [show collapseGo b (c :: rest) = c :: collapseGo false rest by
      simp [collapseGo, hc]]
    rw [ih (fun d hd => h d (by simp [hd])) false]

theorem dropWhile_all_nonspace (l : List Char)
    (h : ∀ c ∈ l, isPySpace c = false) : l.dropWhile isPySpace = l := by
  cases l with
  | nil => rfl
  | cons c rest =>
    have hc : isPySpace c = false := h c (by simp)
    rw [List.dropWhile_cons, hc]
    simp

theorem dropTrailing_all_nonspace (l : List Char)
    (h : ∀ c ∈ l, isPySpace c = false) : dropTrailing isPySpace l = l := by
  induction l with
  | nil => rfl
  | cons c rest ih =>
    have hc : isPySpace c = false := h c (by simp)
    simp only [dropTrailing, ih (fun d hd => h d (by simp [hd])), hc]
    simp

theorem pyStrip_collapseWs_all_nonspace (l : List Char)
    (h : ∀ c ∈ l, isPySpace c = false) :
    (pyStrip (collapseWs ⟨l⟩)).data = l := by
  show (dropTrailing isPySpace ((collapseGo false l).dropWhile isPySpace)) = l
  rw [collapseGo_all_nonspace l h false, dropWhile_all_nonspace l h,
    dropTrailing_all_nonspace l h]

/-! ### Claim C1 -/

/-- C1 (amended): main-content extraction tries the six selectors in
the fixed order, taking the space-joined stripped texts of the first
selector with at least one match; it falls back to the full body text
when no selector matches OR when the joined text of the matching
selector is empty; the result is whitespace-collapsed, stripped and
truncated to 5000 characters, is exactly 5000 characters long whenever
the cleaned qualifying text exceeds 5000 characters, and never contains
two adjacent spaces. -/
theorem extract_main_content_spec (soup : Soup) :
    (soup.selectTexts "main" ≠ [] →
      firstSelectorTexts main_selectors soup
        = joinSp ((soup.selectTexts "main").map pyStrip)) ∧
    ((∀ sel ∈ main_selectors, soup.selectTexts sel = []) →
      rawMainContent soup = soup.bodyText.getD "") ∧
    (firstSelectorTexts main_selectors soup = "" →
      rawMainContent soup = soup.bodyText.getD "") ∧
    (firstSelectorTexts main_selectors soup ≠ "" →
      rawMainContent soup = firstSelectorTexts main_selectors soup) ∧
    extract_main_content soup
      = pyTake 5000 (pyStrip (collapseWs (rawMainContent soup))) ∧
    (5000 < (pyStrip (collapseWs (rawMainContent soup))).data.length →
      (extract_main_content soup).data.length = 5000) ∧
    noTwoSpaces (extract_main_content soup).data = true ∧
    (extract_main_content soup).data.length ≤ 5000 := by
  refine ⟨?_, ?_, ?_, ?_, rfl, ?_, noTwoSpaces_clean _, ?_⟩
  · intro h
    cases hm : soup.selectTexts "main" with
    | nil => exact absurd hm h
    | cons x xs =>
      show firstSelectorTexts ("main" :: _) soup = _
      simp [firstSelectorTexts, hm]
  · intro h
    have h1 : firstSelectorTexts main_selectors soup = "" :=
      firstSelectorTexts_eq_nil soup main_selectors h
    simp only [rawMainContent, h1, if_pos rfl]
    cases soup.bodyText <;> rfl
  · intro h1
    simp only [rawMainContent, h1, if_pos rfl]
    cases soup.bodyText <;> rfl
  · intro h1
    simp only [rawMainContent, if_neg h1]
  · intro h
    simp only [extract_main_content, pyTake, List.length_take]
    omega
  · simp only [extract_main_content, pyTake, List.length_take]
    omega

/-- C1 counterexample: on a document whose only "main" match is a
single blank-text element while the body says "hello", the code
extracts "hello" (body fallback), whereas the claim as stated extracts
the empty join from the "main" matches. -/
theorem extract_main_content_claim_cex :
    mainBlankSoup.selectTexts "main" ≠ [] ∧
    extract_main_content mainBlankSoup = "hello" ∧
    claimedMainContent mainBlankSoup = "" := by
  refine ⟨by decide, by decide, by decide⟩

/-- C1 witness: the amended theorem applied to a document with a
5001-character body and no selector matches yields a 5000-character
extraction. -/
theorem extract_main_content_spec_witness :
    (extract_main_content bigBodySoup).data.length = 5000 := by
  have hraw : rawMainContent bigBodySoup = ⟨List.replicate 5001 'a'⟩ := rfl
  have hns : ∀ c ∈ List.replicate 5001 'a', isPySpace c = false := by
    intro c hc
    rw [List.eq_of_mem_replicate hc]
    decide
  have h5 : 5000 < (pyStrip (collapseWs (rawMainContent bigBodySoup))).data.length := by
    rw [hraw, pyStrip_collapseWs_all_nonspace _ hns, List.length_replicate]
    omega
  exact (extract_main_content_spec bigBodySoup).2.2.2.2.2.1 h5

/-! ### Claims C2, C9, C3: chat behaviour -/

theorem chat_success_eq (model : String → ModelResult) (st : GeminiBotState)
    (user_message t : String)
    (hres : model (chatPrompt st user_message) = ModelResult.ok (some t))
    (ht : t ≠ "") :
    chat model st user_message
      = (pyStrip t, { st with conversation_history :=
          if (appendedHistory st user_message t).length > st.max_history then pyLastSlice st.max_history (appendedHistory st user_message t)
          else appendedHistory st user_message t }) := by
  simp only [chat]
  rw [hres]
  simp [ht, appendedHistory]

/-- C2: on a model-call failure, chat returns the classification of the
lower-cased failure description, and the classifier follows the fixed
priority: api-key or authentication words give the invalid-key message;
otherwise quota or limit words give the quota message; otherwise a
safety word gives the content-blocked message; otherwise the generic
message carrying the raw failure text. -/
theorem chat_error_classification (model : String → ModelResult)
    (st : GeminiBotState) (user_message e : String)
    (h : model (chatPrompt st user_message) = ModelResult.exn e) :
    (chat model st user_message).1 = classify_error e ∧
    ((strContains (pyLower e) "api key" = true ∨
      strContains (pyLower e) "authentication" = true) →
      classify_error e = invalidKeyMsg) ∧
    (strContains (pyLower e) "api key" = false →
      strContains (pyLower e) "authentication" = false →
      (strContains (pyLower e) "quota" = true ∨
       strContains (pyLower e) "limit" = true) →
      classify_error e = quotaMsg) ∧
    (strContains (pyLower e) "api key" = false →
      strContains (pyLower e) "authentication" = false →
      strContains (pyLower e) "quota" = false →
      strContains (pyLower e) "limit" = false →
      strContains (pyLower e) "safety" = true →
      classify_error e = safetyMsg) ∧
    (strContains (pyLower e) "api key" = false →
      strContains (pyLower e) "authentication" = false →
      strContains (pyLower e) "quota" = false →
      strContains (pyLower e) "limit" = false →
      strContains (pyLower e) "safety" = false →
      classify_error e = genericErrorMsg e) := by
  refine ⟨?_, ?_, ?_, ?_, ?_⟩
  · simp only [chat]
    rw [h]
  · rintro (h1 | h1) <;> simp [classify_error, h1]
  · intro ha hb hq
    rcases hq with h1 | h1 <;> simp [classify_error, ha, hb, h1]
  · intro ha hb hq hl hs
    simp [classify_error, ha, hb, hq, hl, hs]
  · intro ha hb hq hl hs
    simp [classify_error, ha, hb, hq, hl, hs]

/-- C2 witness: a failure description containing "quota exceeded" and
no authentication keyword yields exactly the fixed quota message. -/
theorem chat_error_classification_witness :
    (chat (fun _ => ModelResult.exn "Resource quota exceeded for today.")
      GeminiBot_init "hello").1 = quotaMsg := by
  have h := chat_error_classification
    (fun _ => ModelResult.exn "Resource quota exceeded for today.")
    GeminiBot_init "hello" "Resource quota exceeded for today." rfl
  rw [h.1]
  exact h.2.2.1 (by decide) (by decide) (Or.inl (by decide))

/-- C9: chat is atomic on failure: an exception returns the classified
message with the whole state unchanged, and a response with absent or
empty text returns the fixed apology with the whole state unchanged. -/
theorem chat_failure_atomic (model : String → ModelResult)
    (st : GeminiBotState) (user_message : String) :
    (∀ e, model (chatPrompt st user_message) = ModelResult.exn e →
      chat model st user_message = (classify_error e, st)) ∧
    (model (chatPrompt st user_message) = ModelResult.ok none →
      chat model st user_message = (apologyMsg, st)) ∧
    (model (chatPrompt st user_message) = ModelResult.ok (some "") →
      chat model st user_message = (apologyMsg, st)) := by
  refine ⟨?_, ?_, ?_⟩
  · intro e he
    simp only [chat]
    rw [he]
  · intro h
    simp only [chat]
    rw [h]
  · intro h
    simp only [chat]
    rw [h]
    simp

/-- C9 witness: an absent-text response leaves the initial state
untouched and returns the apology. -/
theorem chat_failure_atomic_witness :
    chat (fun _ => ModelResult.ok none) GeminiBot_init "hey"
      = (apologyMsg, GeminiBot_init) :=
  (chat_failure_atomic (fun _ => ModelResult.ok none) GeminiBot_init "hey").2.1 rfl

/-- C3: a successful chat appends exactly one turn and keeps only the
last 10 turns (oldest dropped first); the history length stays at most
10 after any chat call; and after 11 successful turns from a fresh bot
the history has length 10 and its oldest entry is turn 2. -/
theorem chat_history_spec (model : String → ModelResult)
    (st : GeminiBotState) (user_message t : String)
    (hmax : st.max_history = 10) :
    (model (chatPrompt st user_message) = ModelResult.ok (some t) → t ≠ "" →
      (chat model st user_message).2.conversation_history
        = (appendedHistory st user_message t).drop
            ((appendedHistory st user_message t).length - 10) ∧
      (chat model st user_message).2.conversation_history.length ≤ 10) ∧
    (st.conversation_history.length ≤ 10 →
      (chat model st user_message).2.conversation_history.length ≤ 10) ∧
    (runSuccessChats elevenTurns GeminiBot_init).conversation_history.length = 10 ∧
    (runSuccessChats elevenTurns GeminiBot_init).conversation_history.head?
      = some (ConversationTurn.mk "u2" "b2") := by
  have hsucc : ∀ t', model (chatPrompt st user_message) = ModelResult.ok (some t') →
      t' ≠ "" →
      (chat model st user_message).2.conversation_history
        = (appendedHistory st user_message t').drop
            ((appendedHistory st user_message t').length - 10) ∧
      (chat model st user_message).2.conversation_history.length ≤ 10 := by
    intro t' hres ht
    rw [chat_success_eq model st user_message t' hres ht]
    rw [hmax]
    by_cases hgt : (appendedHistory st user_message t').length > 10
    · rw [if_pos hgt]
      constructor
      · simp [pyLastSlice]
      · simp only [pyLastSlice, if_neg (by omega : (10 : Nat) ≠ 0), List.length_drop]
        omega
    · rw [if_neg hgt]
      push_neg at hgt
      constructor
      · rw [Nat.sub_eq_zero_of_le hgt, List.drop_zero]
      · exact hgt
  refine ⟨fun hres ht => hsucc t hres ht, ?_, by decide, by decide⟩
  intro hlen
  cases hres : model (chatPrompt st user_message) with
  | exn e =>
    have := (chat_failure_atomic model st user_message).1 e hres
    rw [this]
    exact hlen
  | ok text =>
    cases text with
    | none =>
      have := (chat_failure_atomic model st user_message).2.1 hres
      rw [this]
      exact hlen
    | some t' =>
      by_cases ht' : t' = ""
      · subst ht'
        have := (chat_failure_atomic model st user_message).2.2 hres
        rw [this]
        exact hlen
      · exact (hsucc t' hres ht').2

/-- C3 witness: one successful turn from a fresh bot gives a history of
length at most 10. -/
theorem chat_history_spec_witness :
    (chat (fun _ => ModelResult.ok (some "hi")) GeminiBot_init "q").2.conversation_history.length
      ≤ 10 :=
  ((chat_history_spec (fun _ => ModelResult.ok (some "hi")) GeminiBot_init "q" "hi"
    rfl).1 rfl (by decide)).2

/-! ### Substring containment lemmas -/

theorem charsStartWith_iff (p : List Char) : ∀ l : List Char,
    charsStartWith p l = true ↔ ∃ r, l = p ++ r := by
  induction p with
  | nil =>
    intro l
    simp [charsStartWith]
  | cons c cs ih =>
    intro l
    cases l with
    | nil =>
      simp [charsStartWith]
    | cons d ds =>
      rw [show charsStartWith (c :: cs) (d :: ds)
          = ((c == d) && charsStartWith cs ds) from rfl]
      constructor
      · intro h
        rw [Bool.and_eq_true, beq_iff_eq] at h
        obtain ⟨r, hr⟩ := (ih ds).1 h.2
        exact ⟨r, by rw [hr, h.1, List.cons_append]⟩
      · rintro ⟨r, hr⟩
        rw [List.cons_append] at hr
        injection hr with h1 h2
        rw [Bool.and_eq_true, beq_iff_eq]
        exact ⟨h1.symm, (ih ds).2 ⟨r, h2⟩⟩

theorem charsContain_iff (pat : List Char) : ∀ l : List Char,
    charsContain pat l = true ↔ ∃ pre suf, l = pre ++ (pat ++ suf) := by
  intro l
  induction l with
  | nil =>
    rw [show charsContain pat [] = charsStartWith pat [] from rfl,
      charsStartWith_iff]
    constructor
    · rintro ⟨r, hr⟩
      exact ⟨[], r, by simpa using hr⟩
    · rintro ⟨pre, suf, h⟩
      have h1 : pre = [] ∧ pat ++ suf = [] := by
        constructor
        · cases pre with
          | nil => rfl
          | cons a as => simp at h
        · cases pre with
          | nil => simpa using h.symm
          | cons a as => simp at h
      have h2 : pat = [] := by
        have := h1.2
        cases pat with
        | nil => rfl
        | cons a as => simp at this
      exact ⟨[], by simp [h2]⟩
  | cons c rest ih =>
    rw [show charsContain pat (c :: rest)
        = (charsStartWith pat (c :: rest) || charsContain pat rest) from rfl]
    rw [Bool.or_eq_true, charsStartWith_iff, ih]
    constructor
    · rintro (⟨r, hr⟩ | ⟨pre, suf, h⟩)
      · exact ⟨[], r, by simpa using hr⟩
      · exact ⟨c :: pre, suf, by rw [h, List.cons_append]⟩
    · rintro ⟨pre, suf, h⟩
      cases pre with
      | nil => exact Or.inl ⟨suf, by simpa using h⟩
      | cons d ds =>
        rw [List.cons_append] at h
        injection h with h1 h2
        exact Or.inr ⟨ds, suf, h2⟩

theorem strContains_refl (s : String) : strContains s s = true := by
  rw [strContains, charsContain_iff]
  exact ⟨[], [], by simp⟩

theorem strContains_append_right (s t pat : String)
    (h : strContains t pat = true) : strContains (s ++ t) pat = true := by
  rw [strContains, charsContain_iff] at h ⊢
  obtain ⟨pre, suf, hd⟩ := h
  exact ⟨s.data ++ pre, suf, by rw [String.data_append, hd, List.append_assoc]⟩

theorem strContains_append_left_mono (s t pat : String)
    (h : strContains s pat = true) : strContains (s ++ t) pat = true := by
  rw [strContains, charsContain_iff] at h ⊢
  obtain ⟨pre, suf, hd⟩ := h
  refine ⟨pre, suf ++ t.data, ?_⟩
  rw [String.data_append, hd]
  simp [List.append_assoc]

theorem strContains_trans (s m pat : String)
    (h1 : strContains s m = true) (h2 : strContains m pat = true) :
    strContains s pat = true := by
  rw [strContains, charsContain_iff] at h1 h2 ⊢
  obtain ⟨p1, s1, hd1⟩ := h1
  obtain ⟨p2, s2, hd2⟩ := h2
  refine ⟨p1 ++ p2, s2 ++ s1, ?_⟩
  rw [hd1, hd2]
  simp [List.append_assoc]

/-! ### Claim C4 -/

theorem set_website_context_context_eq (st : GeminiBotState)
    (content : ExtractedContent) :
    (set_website_context st content).context = specContextBlock content := by
  simp only [set_website_context, specContextBlock, contextTailParts]
  by_cases hm : content.main_content = "" <;>
    cases hh : content.headings <;>
      cases hl : content.links <;>
        simp [hh, hl, hm, List.append_assoc]

/-- C4: set_website_context stores the content and builds the fixed
newline-joined context block (title line, URL line, meta-description
line, optional headings section capped at 10, optional main-content
line with the full stored body, optional links section capped at 5),
and every subsequent chat embeds this block, hence the title and URL
verbatim, in the outbound prompt. -/
theorem set_website_context_spec (st : GeminiBotState)
    (content : ExtractedContent) (user_message : String) :
    (set_website_context st content).website_content = some content ∧
    (set_website_context st content).conversation_history
      = st.conversation_history ∧
    (set_website_context st content).context = specContextBlock content ∧
    strContains (chatPrompt (set_website_context st content) user_message)
      (set_website_context st content).context = true ∧
    strContains (chatPrompt (set_website_context st content) user_message)
      content.title = true ∧
    strContains (chatPrompt (set_website_context st content) user_message)
      content.url = true := by
  have hctx : (set_website_context st content).context = specContextBlock content :=
    set_website_context_context_eq st content
  have hprompt : chatPrompt (set_website_context st content) user_message
      = promptHead ++ specContextBlock content ++ promptMid ++ user_message
        ++ promptTail := by
    rw [chatPrompt, hctx]
  have hA : strContains (chatPrompt (set_website_context st content) user_message)
      (specContextBlock content) = true := by
    rw [hprompt]
    apply strContains_append_left_mono
    apply strContains_append_left_mono
    apply strContains_append_left_mono
    exact strContains_append_right _ _ _ (strContains_refl _)
  have h1 : specContextBlock content
      = ("Website Title: " ++ content.title) ++ "\n"
        ++ joinNl (("URL: " ++ content.url)
          :: ("Meta Description: " ++ content.meta_description)
          :: contextTailParts content) := rfl
  have h2 : joinNl (("URL: " ++ content.url)
        :: ("Meta Description: " ++ content.meta_description)
        :: contextTailParts content)
      = ("URL: " ++ content.url) ++ "\n"
        ++ joinNl (("Meta Description: " ++ content.meta_description)
          :: contextTailParts content) := rfl
  have hB : strContains (specContextBlock content) content.title = true := by
    rw [h1]
    apply strContains_append_left_mono
    apply strContains_append_left_mono
    exact strContains_append_right _ _ _ (strContains_refl _)
  have hC : strContains (specContextBlock content) content.url = true := by
    rw [h1, h2]
    apply strContains_append_right
    apply strContains_append_left_mono
    apply strContains_append_left_mono
    exact strContains_append_right _ _ _ (strContains_refl _)
  refine ⟨rfl, rfl, hctx, ?_, ?_, ?_⟩
  · rw [hctx]
    exact hA
  · exact strContains_trans _ _ _ hA hB
  · exact strContains_trans _ _ _ hA hC

/-! ### Claim C5 -/

/-- C5: link extraction examines at most the first 10 href-carrying
anchors in document order, emits "text: absolute url" exactly for those
with nonempty stripped text (resolving against the page URL), never
returns more than 10 links, ignores anchors beyond the first 10, and
can return fewer than 10 links on a document with 10 anchors because
blank-text anchors are skipped yet consume a slot. -/
theorem extract_links_spec (urljoin : String → String → String) (soup : Soup)
    (base_url : String) :
    (extract_links urljoin soup base_url).length ≤ 10 ∧
    (∀ s ∈ extract_links urljoin soup base_url,
      ∃ a ∈ soup.anchors.take 10, pyStrip a.text ≠ "" ∧
        s = pyStrip a.text ++ ": " ++ urljoin base_url a.href) ∧
    extract_links urljoin { soup with anchors := soup.anchors.take 10 } base_url
      = extract_links urljoin soup base_url ∧
    (10 ≤ soup.anchors.length → ∀ a,
      extract_links urljoin { soup with anchors := soup.anchors ++ [a] } base_url
        = extract_links urljoin soup base_url) ∧
    (∃ (soup₀ : Soup) (uj₀ : String → String → String) (base₀ : String),
      soup₀.anchors.length = 10 ∧
      (extract_links uj₀ soup₀ base₀).length < 10) := by
  refine ⟨?_, ?_, ?_, ?_, ?_⟩
  · refine le_trans (List.length_filterMap_le _ _) ?_
    rw [List.length_take]
    exact Nat.min_le_left _ _
  · intro s hs
    simp only [extract_links] at hs
    obtain ⟨a, ha, hfa⟩ := List.mem_filterMap.1 hs
    refine ⟨a, ha, ?_⟩
    by_cases hta : pyStrip a.text = ""
    · simp [hta] at hfa
    · simp only [hta, if_neg, if_false] at hfa
      exact ⟨hta, (Option.some.inj hfa).symm⟩
  · simp only [extract_links, List.take_take]
    norm_num
  · intro h a
    simp only [extract_links, List.take_append_of_le_length h]
  · exact ⟨tenAnchorsSoup, fun _ h => h, "b", by decide, by decide⟩

/-- C5 witness: with at least 10 anchors present, appending one more
anchor does not change the extracted links. -/
theorem extract_links_spec_witness :
    extract_links (fun _ h => h)
      { tenAnchorsSoup with anchors := tenAnchorsSoup.anchors ++ [Anchor.mk "/a11" "t11"] }
      "base"
      = extract_links (fun _ h => h) tenAnchorsSoup "base" :=
  (extract_links_spec (fun _ h => h) tenAnchorsSoup "base").2.2.2.1 (by decide)
    (Anchor.mk "/a11" "t11")

/-! ### Claim C6 -/

/-- C6: heading extraction scans levels 1 through 6 in order, in
document order within each level, formats nonempty trimmed texts with
an H-level tag, and caps the collection at 20 entries kept in scan
order — so more than 20 qualifying headings give exactly 20 results,
each carrying its source level. -/
theorem extract_headings_spec (soup : Soup) :
    extract_headings soup = (qualifyingHeadings soup).take 20 ∧
    (20 < (qualifyingHeadings soup).length →
      (extract_headings soup).length = 20) ∧
    (extract_headings soup).length ≤ 20 ∧
    (∀ s ∈ extract_headings soup, ∃ i, 1 ≤ i ∧ i ≤ 6 ∧
      ∃ raw ∈ soup.headingTexts i, pyStrip raw ≠ "" ∧
        s = "H" ++ toString i ++ ": " ++ pyStrip raw) := by
  refine ⟨rfl, ?_, ?_, ?_⟩
  · intro h
    simp only [extract_headings, List.length_take]
    exact Nat.min_eq_left (le_of_lt h)
  · simp only [extract_headings, List.length_take]
    exact Nat.min_le_left _ _
  · intro s hs
    have hs' : s ∈ qualifyingHeadings soup := List.take_subset 20 _ hs
    simp only [qualifyingHeadings] at hs'
    obtain ⟨i, hi, hmem⟩ := List.mem_flatMap.1 hs'
    obtain ⟨raw, hraw, hf⟩ := List.mem_filterMap.1 hmem
    have hb : 1 ≤ i ∧ i ≤ 6 := by
      simp only [List.mem_cons, List.not_mem_nil, or_false] at hi
      rcases hi with rfl | rfl | rfl | rfl | rfl | rfl <;> exact ⟨by norm_num, by norm_num⟩
    refine ⟨i, hb.1, hb.2, raw, hraw, ?_, ?_⟩
    · by_cases hr : pyStrip raw = ""
      · simp [hr] at hf
      · exact hr
    · by_cases hr : pyStrip raw = ""
      · simp [hr] at hf
      · rw [if_neg hr] at hf
        exact (Option.some.inj hf).symm

/-- C6 witness: a document with 21 qualifying headings yields exactly
20 heading strings. -/
theorem extract_headings_spec_witness :
    (extract_headings manyHeadingsSoup).length = 20 :=
  (extract_headings_spec manyHeadingsSoup).2.1 (by decide)

/-! ### Claim C7 -/

/-- C7 (amended): URL acquisition aborts on an entry that is empty
after stripping; otherwise it prepends "https://" exactly when the
entry starts with neither "http://" nor "https://" (not merely when no
scheme is present), accepts the result exactly when it parses with a
nonempty host component, and re-prompts on the remaining input
otherwise. -/
theorem get_website_url_spec (entry : String) (rest : List String) :
    (pyStrip entry = "" → get_website_url (entry :: rest) = none) ∧
    (pyStrip entry ≠ "" → urlNetloc (normalizeUrl (pyStrip entry)) ≠ "" →
      get_website_url (entry :: rest) = some (normalizeUrl (pyStrip entry))) ∧
    (pyStrip entry ≠ "" → urlNetloc (normalizeUrl (pyStrip entry)) = "" →
      get_website_url (entry :: rest) = get_website_url rest) ∧
    ((pyStartsWith (pyStrip entry) "http://" = false ∧
      pyStartsWith (pyStrip entry) "https://" = false) →
      normalizeUrl (pyStrip entry) = "https://" ++ pyStrip entry) ∧
    ((pyStartsWith (pyStrip entry) "http://" = true ∨
      pyStartsWith (pyStrip entry) "https://" = true) →
      normalizeUrl (pyStrip entry) = pyStrip entry) := by
  refine ⟨?_, ?_, ?_, ?_, ?_⟩
  · intro h
    simp only [get_website_url]
    rw [if_pos h]
  · intro h1 h2
    simp only [get_website_url]
    rw [if_neg h1, if_pos h2]
  · intro h1 h2
    have hn : ¬(urlNetloc (normalizeUrl (pyStrip entry)) ≠ "") := fun hc => hc h2
    simp only [get_website_url]
    rw [if_neg h1, if_neg hn]
  · rintro ⟨h1, h2⟩
    simp [normalizeUrl, h1, h2]
  · rintro (h | h) <;> simp [normalizeUrl, h]

/-- C7 counterexample: the entry "ftp://example.com" carries a scheme,
yet the code still prepends "https://" (it only tests for the two
literal http protocols) and accepts the result. -/
theorem get_website_url_claim_cex :
    hasScheme "ftp://example.com" = true ∧
    get_website_url ["ftp://example.com"] = some "https://ftp://example.com" :=
  ⟨by decide, by decide⟩

/-- C7 witness: a bare host entry gets the "https://" protocol added
and is accepted. -/
theorem get_website_url_spec_witness :
    get_website_url ["example.com"] = some (normalizeUrl (pyStrip "example.com")) :=
  (get_website_url_spec "example.com" []).2.1 (by decide) (by decide)

/-! ### Claim C8 -/

/-- C8: changing the website leaves the stored context (hence the title
the info command shows) entirely unchanged when the URL prompt aborts
or the fetch fails; when the fetch succeeds the stored content and
context are replaced wholesale and the conversation history is not
cleared. -/
theorem change_website_spec (fetch : String → Option ExtractedContent)
    (inputs : List String) (app : AppState) :
    (get_website_url inputs = none → change_website fetch inputs app = app) ∧
    (∀ url, get_website_url inputs = some url → fetch url = none →
      change_website fetch inputs app = app ∧
      shownInfoTitle (change_website fetch inputs app) = shownInfoTitle app) ∧
    (∀ url content, get_website_url inputs = some url → fetch url = some content →
      (change_website fetch inputs app).bot.website_content = some content ∧
      (change_website fetch inputs app).bot.context = specContextBlock content ∧
      (change_website fetch inputs app).bot.conversation_history
        = app.bot.conversation_history ∧
      (change_website fetch inputs app).website_url = some url) := by
  refine ⟨?_, ?_, ?_⟩
  · intro h
    simp only [change_website, h]
  · intro url hu hf
    have heq : change_website fetch inputs app = app := by
      simp only [change_website, hu, hf]
    exact ⟨heq, by rw [heq]⟩
  · intro url content hu hf
    have heq : change_website fetch inputs app
        = { bot := set_website_context app.bot content, website_url := some url } := by
      simp only [change_website, hu, hf]
    rw [heq]
    exact ⟨rfl, set_website_context_context_eq app.bot content, rfl, rfl⟩

/-- C8 witness: a failing fetch during a website change leaves the
previously shown title in place. -/
theorem change_website_spec_witness :
    shownInfoTitle (change_website (fun _ => none) ["example.com"] oldApp)
      = shownInfoTitle oldApp :=
  ((change_website_spec (fun _ => none) ["example.com"] oldApp).2.1
    "https://example.com" (by decide) rfl).2

/-! ### Claim C10 -/

/-- C10: a nonempty GOOGLE_API_KEY environment value is returned at
once, with no prefix check and no warning, whatever the key looks like;
the warning can only arise on the interactive path. -/
theorem get_api_key_env (k entered : String) (h : k ≠ "") :
    get_api_key (some k) entered = { key := some k, warned := false } := by
  simp only [get_api_key]
  rw [if_neg h]

/-- C10 witness: an environment key that does not start with "AI" is
still returned unwarned. -/
theorem get_api_key_env_witness :
    get_api_key (some "ZZZ-not-a-typical-key") "ignored"
      = { key := some "ZZZ-not-a-typical-key", warned := false } :=
  get_api_key_env "ZZZ-not-a-typical-key" "ignored" (by decide)
